import Mathlib

/-!
# libpcc: the point-cloud grid encoder

A shallow embedding of `include/PointCloudGridEncoder.hpp`: the templated
`encode<P, C>` and `buildPointCloudGrid<P, C>` are translated from the header;
the collaborators the header only declares or includes (the grid container,
the bounding box, the quantization mapping, the frame codec) are either taken
as parameters (`Helpers`) or modelled from the specification and marked so.
-/

namespace Libpcc

/-! ## Scalars and vectors -/

/-- Model of the C++ `float`: finite values are exact rationals, together with
the two infinities and NaN that a division by zero produces instead of
trapping. Rounding to 24 bits of mantissa, underflow and overflow are not
modelled: the properties stated below are structural, and the sample values
are exactly representable floats whose results are exact. -/
inductive F32 where
  | fin (q : ℚ)
  | inf (neg : Bool)
  | nan
deriving DecidableEq

namespace F32

/-- The conversion `(float) n` of an unsigned integer. -/
def ofNat (n : Nat) : F32 := fin (n : ℚ)

/-- Unary minus. -/
def neg : F32 → F32
  | fin q => fin (-q)
  | inf s => inf (!s)
  | nan => nan

/-- Float addition. -/
def add : F32 → F32 → F32
  | fin a, fin b => fin (a + b)
  | fin _, inf s => inf s
  | inf s, fin _ => inf s
  | inf s, inf t => if s = t then inf s else nan
  | _, _ => nan

/-- Float subtraction. -/
def sub (a b : F32) : F32 := add a (neg b)

/-- Float multiplication. -/
def mul : F32 → F32 → F32
  | fin a, fin b => fin (a * b)
  | fin a, inf s => if a = 0 then nan else inf (xor s (decide (a < 0)))
  | inf s, fin b => if b = 0 then nan else inf (xor s (decide (b < 0)))
  | inf s, inf t => inf (xor s t)
  | _, _ => nan

/-- Float division, without rounding of a finite quotient. A zero divisor does
not trap: it yields an infinity, or NaN for `0 / 0` (the zero divisors met
here are the positive zero `(float) 0`). -/
def div : F32 → F32 → F32
  | fin a, fin b =>
    if b = 0 then (if a = 0 then nan else inf (decide (a < 0))) else fin (a / b)
  | fin _, inf _ => fin 0
  | inf s, fin b => inf (xor s (decide (b < 0)))
  | _, _ => nan

/-- The comparison `a <= b`; false as soon as one side is NaN. -/
def le : F32 → F32 → Bool
  | fin a, fin b => decide (a ≤ b)
  | fin _, inf s => !s
  | inf s, fin _ => s
  | inf s, inf t => s || !t
  | _, _ => false

end F32

/-- The `Vec<T>` of three components `x`, `y`, `z`. -/
structure Vec (T : Type) where
  x : T
  y : T
  z : T
deriving DecidableEq

/-- `Vec32`, a vector of floats. -/
abbrev Vec32 := Vec F32

/-- `Vec8`, a vector of `uint8_t`. -/
abbrev Vec8 := Vec (Fin 256)

/-- The primitive types `P` and `C` that `encode` is instantiated with. -/
inductive PrimType where
  | float32
  | uint8
  | uint32
deriving DecidableEq

/-- The C++ type a `PrimType` stands for. -/
abbrev PrimType.val : PrimType → Type
  | .float32 => F32
  | .uint8 => Fin 256
  | .uint32 => Fin 4294967296

/-- The numeric conversion `static_cast<B>(a)` between primitive types: an
integer converts to the float of the same value, a float converts to an
integer by truncation toward zero (reduced modulo the width; NaN and negative
values, undefined in C++, give 0), integers convert modulo the width. -/
def PrimType.cast : (A B : PrimType) → A.val → B.val
  | .float32, .float32 => fun a => a
  | .uint8, .uint8 => fun a => a
  | .uint32, .uint32 => fun a => a
  | .uint8, .float32 => fun a => F32.ofNat a.val
  | .uint32, .float32 => fun a => F32.ofNat a.val
  | .uint8, .uint32 => fun a => Fin.ofNat a.val
  | .uint32, .uint8 => fun a => Fin.ofNat a.val
  | .float32, .uint8 => fun a =>
    match a with
    | F32.fin q => Fin.ofNat (Rat.floor q).toNat
    | _ => 0
  | .float32, .uint32 => fun a =>
    match a with
    | F32.fin q => Fin.ofNat (Rat.floor q).toNat
    | _ => 0

/-- The implicit conversion of a `Vec<A>` to a `Vec<B>`, component by
component. -/
def convertVec (A B : PrimType) (v : Vec A.val) : Vec B.val :=
  ⟨PrimType.cast A B v.x, PrimType.cast A B v.y, PrimType.cast A B v.z⟩

/-- Modelled from the spec: the type-erased `VariantValue`, whose declaration
is missing from the sources: a vector together with the primitive type it was
stored with. -/
inductive VariantValue where
  | f32 (v : Vec F32)
  | u8 (v : Vec (Fin 256))
  | u32 (v : Vec (Fin 4294967296))
deriving DecidableEq

/-- The call `v.set<T>(value)`: the value is stored with type `T`. -/
def VariantValue.set : (T : PrimType) → Vec T.val → VariantValue
  | .float32, v => .f32 v
  | .uint8, v => .u8 v
  | .uint32, v => .u32 v

/-- The primitive type a `VariantValue` currently holds. -/
def VariantValue.type : VariantValue → PrimType
  | .f32 _ => .float32
  | .u8 _ => .uint8
  | .u32 _ => .uint32

/-! ## Bounding box, point cloud, grid -/

/-- Modelled from the spec: the `BoundingBox`, whose declaration is missing
from the sources: two corner positions, constructed as `BoundingBox(min, max)`. -/
structure BoundingBox where
  min : Vec32
  max : Vec32
deriving DecidableEq

/-- Modelled from the spec: the `PointCloud<Vec32, Vec32>`, whose declaration
is missing from the sources: the vectors `points` and `colors` and the field
`bounding_box` that the header reads. -/
structure PointCloud where
  points : List Vec32
  colors : List Vec32
  bounding_box : BoundingBox
deriving DecidableEq

/-- The origin `Vec32(0, 0, 0)`. -/
def Vec32.zero : Vec32 := ⟨F32.fin 0, F32.fin 0, F32.fin 0⟩

/-- Modelled from the spec: the call `point_cloud->size()`: the number of
points (taken to fit the `unsigned` loop counter). -/
def PointCloud.size (pc : PointCloud) : Nat := pc.points.length

/-- The read `point_cloud->points[i]`. -/
def PointCloud.point (pc : PointCloud) (i : Nat) : Vec32 := pc.points.getD i Vec32.zero

/-- The read `point_cloud->colors[i]` (outside the vector, undefined in C++,
the model reads the origin). -/
def PointCloud.color (pc : PointCloud) (i : Nat) : Vec32 := pc.colors.getD i Vec32.zero

/-- A grid cell: the ordered list of (position, color) attribute pairs. -/
abbrev GridCell := List (VariantValue × VariantValue)

/-- Modelled from the spec: the grid container `VariantPointCloudGrid` of
`PointCloudGrid.hpp`, which is not part of the sources: it owns the grid
dimensions, the bounding box (the encoding domain) and the cells, addressed by
their linear index. -/
structure VariantPointCloudGrid where
  dimensions : Vec8
  bounding_box : BoundingBox
  cells : List GridCell
deriving DecidableEq

/-- The number of cells of a grid of the given dimensions. -/
def cellCount (dims : Vec8) : Nat := dims.x.val * dims.y.val * dims.z.val

/-- Modelled from the spec: `VariantPointCloudGrid::resize`, missing from the
sources: the grid is cleared and resized to the given dimensions, one empty
cell per linear index. -/
def VariantPointCloudGrid.resize (g : VariantPointCloudGrid) (dims : Vec8) :
    VariantPointCloudGrid :=
  { g with dimensions := dims, cells := List.replicate (cellCount dims) [] }

/-- Modelled from the spec: `VariantPointCloudGrid::addVoxel`, missing from
the sources: the (position, color) pair is appended to the attribute list of
the cell with the given index (an index past the last cell, undefined in C++,
stores nothing). -/
def VariantPointCloudGrid.addVoxel (g : VariantPointCloudGrid) (cell_idx : Nat)
    (pos clr : VariantValue) : VariantPointCloudGrid :=
  { g with cells := List.modify (fun c => c ++ [(pos, clr)]) cell_idx g.cells }

/-! ## The collaborators that the header only declares -/

/-- The pure helpers that `buildPointCloudGrid` calls and whose bodies are not
in the header: `BoundingBox::contains`, `BoundingBox::calcRange`, the member
functions `calcGridCellIndex` and `mapToCell` (which read the dimensions and
the bounding box of the grid), and the quantization `mapVec<float, T>`. -/
structure Helpers where
  contains : BoundingBox → Vec32 → Bool
  calcRange : BoundingBox → Vec32
  calcGridCellIndex : Vec8 → BoundingBox → Vec32 → Vec32 → Nat
  mapToCell : Vec8 → BoundingBox → Vec32 → Vec32 → Vec32
  mapVec : (T : PrimType) → Vec32 → BoundingBox → Vec T.val

/-! ## Grid builder (from the header) -/

/-- Lines 54 to 58 of `buildPointCloudGrid`: the range of the grid bounding
box, each component divided by the dimension cast to float. -/
def cellRange (h : Helpers) (g : VariantPointCloudGrid) : Vec32 :=
  let cell_range := h.calcRange g.bounding_box
  ⟨F32.div cell_range.x (F32.ofNat g.dimensions.x.val),
   F32.div cell_range.y (F32.ofNat g.dimensions.y.val),
   F32.div cell_range.z (F32.ofNat g.dimensions.z.val)⟩

/-- The color domain `bb_clr`. -/
def bbClr : BoundingBox :=
  ⟨Vec32.zero, ⟨F32.fin 1, F32.fin 1, F32.fin 1⟩⟩

/-- The cell-local position domain `bb_cell`. -/
def bbCell (cell_range : Vec32) : BoundingBox := ⟨Vec32.zero, cell_range⟩

/-- One iteration of the loop of `buildPointCloudGrid<P, C>`, for index `i`.
Both `compressed_pos` and `compressed_clr` are declared `Vec<P>`, so the
quantized color passes through `Vec<P>` before `set<C>` stores it. -/
def buildStep (h : Helpers) (P C : PrimType) (pc : PointCloud) (cell_range : Vec32)
    (g : VariantPointCloudGrid) (i : Nat) : VariantPointCloudGrid :=
  if !(h.contains g.bounding_box (pc.point i)) then g
  else
    let cell_idx := h.calcGridCellIndex g.dimensions g.bounding_box (pc.point i) cell_range
    let pos_cell := h.mapToCell g.dimensions g.bounding_box (pc.point i) cell_range
    let compressed_pos : Vec P.val := h.mapVec P pos_cell (bbCell cell_range)
    let compressed_clr : Vec P.val := convertVec C P (h.mapVec C (pc.color i) bbClr)
    let v_pos := VariantValue.set P compressed_pos
    let v_clr := VariantValue.set C (convertVec P C compressed_clr)
    g.addVoxel cell_idx v_pos v_clr

/-- The member function `buildPointCloudGrid<P, C>`: fills the grid from the
point cloud, for `i` from 0 to `size() - 1`. -/
def buildPointCloudGrid (h : Helpers) (P C : PrimType) (g : VariantPointCloudGrid)
    (pc : PointCloud) : VariantPointCloudGrid :=
  (List.range pc.size).foldl (buildStep h P C pc (cellRange h g)) g

/-! ## Codecs and the frame codec -/

/-- The enumeration `PointCloudGridEncoder::Codec`. -/
inductive Codec where
  | PC_3x32p_3x8c
  | PC_3x8p_3x8c
  | PC_1x32p_1x32c
deriving DecidableEq

/-- Modelled from the spec: the position type `P` of each codec, which the
header names but does not define: 32-bit float positions, 8-bit positions, or
positions packed into one 32-bit word. -/
def Codec.posType : Codec → PrimType
  | .PC_3x32p_3x8c => .float32
  | .PC_3x8p_3x8c => .uint8
  | .PC_1x32p_1x32c => .uint32

/-- Modelled from the spec: the color type `C` of each codec, which the header
names but does not define. -/
def Codec.clrType : Codec → PrimType
  | .PC_3x32p_3x8c => .uint8
  | .PC_3x8p_3x8c => .uint8
  | .PC_1x32p_1x32c => .uint32

/-- The value of each enumerator. -/
def Codec.id : Codec → Fin 256
  | .PC_3x32p_3x8c => 0
  | .PC_3x8p_3x8c => 1
  | .PC_1x32p_1x32c => 2

/-- The codec an identifier byte names, if any. -/
def Codec.ofId (b : Fin 256) : Option Codec :=
  if b = 0 then some .PC_3x32p_3x8c
  else if b = 1 then some .PC_3x8p_3x8c
  else if b = 2 then some .PC_1x32p_1x32c
  else none

/-- Modelled from the spec: the codec identifier byte of the message header,
written by the missing `encodePointCloudGrid`: the enumerator of the codec with
these position and color types; a pair of types that is none of the three
codecs is written as 255, an identifier that `decode` does not recognise. -/
def codecId : PrimType → PrimType → Fin 256
  | .float32, .uint8 => Codec.PC_3x32p_3x8c.id
  | .uint8, .uint8 => Codec.PC_3x8p_3x8c.id
  | .uint32, .uint32 => Codec.PC_1x32p_1x32c.id
  | _, _ => 255

/-- One fixed-width field of the binary message: a byte, a 32-bit unsigned
integer or a 32-bit float. -/
inductive Field where
  | byte (b : Fin 256)
  | uint (n : Fin 4294967296)
  | real (v : F32)
deriving DecidableEq

/-- The binary message, as its sequence of fields. -/
abbrev Message := List Field

/-- Modelled from the spec: the packing of a vector into a single 32-bit word
for the packed codec, with the widths of the spec's example (10 bits for x, 11
for y, 11 for z). -/
def packVec (v : Vec (Fin 4294967296)) : Fin 4294967296 :=
  Fin.ofNat (v.x.val % 1024 + 1024 * (v.y.val % 2048) + 2097152 * (v.z.val % 2048))

/-- Modelled from the spec: the inverse of `packVec`. -/
def unpackVec (w : Fin 4294967296) : Vec (Fin 4294967296) :=
  ⟨Fin.ofNat (w.val % 1024), Fin.ofNat (w.val / 1024 % 2048),
   Fin.ofNat (w.val / 2097152 % 2048)⟩

/-- Modelled from the spec: the serialization of one attribute value with the
fixed width of its type: three floats, three bytes, or one packed word. -/
def encodeValue : VariantValue → Message
  | .f32 v => [.real v.x, .real v.y, .real v.z]
  | .u8 v => [.byte v.x, .byte v.y, .byte v.z]
  | .u32 v => [.uint (packVec v)]

/-- Modelled from the spec: the serialization of one cell: its attribute count,
then its attribute pairs in insertion order. -/
def encodeCell (cell : GridCell) : Message :=
  .uint (Fin.ofNat cell.length) :: cell.flatMap (fun a => encodeValue a.1 ++ encodeValue a.2)

/-- Modelled from the spec: the fixed-size header: codec identifier, grid
dimensions, bounding box corners. -/
def encodeHeader (P C : PrimType) (g : VariantPointCloudGrid) : Message :=
  [.byte (codecId P C),
   .uint (Fin.ofNat g.dimensions.x.val), .uint (Fin.ofNat g.dimensions.y.val),
   .uint (Fin.ofNat g.dimensions.z.val),
   .real g.bounding_box.min.x, .real g.bounding_box.min.y, .real g.bounding_box.min.z,
   .real g.bounding_box.max.x, .real g.bounding_box.max.y, .real g.bounding_box.max.z]

/-- Modelled from the spec: `encodePointCloudGrid`, which the header declares
without a body: the header followed by every cell in linear index order,
empty cells included. The spec gives it the active codec identifier, which the
model passes as the template arguments of the enclosing `encode<P, C>`. -/
def encodePointCloudGrid (P C : PrimType) (g : VariantPointCloudGrid) : Message :=
  encodeHeader P C g ++ g.cells.flatMap encodeCell

/-- The state of a `PointCloudGridEncoder` instance: its three fields. -/
structure PointCloudGridEncoder where
  pc_grid_ : VariantPointCloudGrid
  header_size_bytes_ : Nat
  header_ : List F32
deriving DecidableEq

/-- The member function `encode<P, C>`: resizes the grid, sets its bounding
box to the point cloud's, builds the grid and returns the message, together
with the encoder state it leaves behind. -/
def encode (h : Helpers) (P C : PrimType) (enc : PointCloudGridEncoder) (pc : PointCloud)
    (grid_dimensions : Vec8) : Message × PointCloudGridEncoder :=
  let g1 := enc.pc_grid_.resize grid_dimensions
  let g2 := { g1 with bounding_box := pc.bounding_box }
  let g3 := buildPointCloudGrid h P C g2 pc
  (encodePointCloudGrid P C g3, { enc with pc_grid_ := g3 })

/-! ## The collaborators, modelled from the specification -/

/-- Modelled from the spec: `BoundingBox::contains`, missing from the sources:
the containment test, `min <= p <= max` on every axis. -/
def BoundingBox.contains (bb : BoundingBox) (p : Vec32) : Bool :=
  F32.le bb.min.x p.x && F32.le p.x bb.max.x &&
  F32.le bb.min.y p.y && F32.le p.y bb.max.y &&
  F32.le bb.min.z p.z && F32.le p.z bb.max.z

/-- Modelled from the spec: `BoundingBox::calcRange`, missing from the sources:
the axis-aligned extent `max - min`. -/
def BoundingBox.calcRange (bb : BoundingBox) : Vec32 :=
  ⟨F32.sub bb.max.x bb.min.x, F32.sub bb.max.y bb.min.y, F32.sub bb.max.z bb.min.z⟩

/-- The floor of a float, clamped to `[0, hi]` (NaN gives 0). -/
def clampFloor (v : F32) (hi : Nat) : Nat :=
  match v with
  | F32.fin q => Nat.min (Rat.floor q).toNat hi
  | F32.inf false => hi
  | _ => 0

/-- Modelled from the spec: the grid coordinate of a position on one axis,
after step 3 of the grid builder: the offset from the bounding box minimum
divided by the cell range, floored and clamped to `[0, dimension - 1]`. The
spec also remarks that ties resolve to the lower-indexed cell; for an offset
that is an exact multiple of the cell range the floor gives the upper cell,
and no property below rests on where such a point goes. -/
def gridCoord (dim : Fin 256) (lo pos cell_range : F32) : Nat :=
  clampFloor (F32.div (F32.sub pos lo) cell_range) (dim.val - 1)

/-- Modelled from the spec: `calcGridCellIndex`, which the header declares
without a body: the grid coordinate per axis, linearized in row-major order
`x + dim.x * (y + dim.y * z)`. -/
def calcGridCellIndex (dims : Vec8) (bb : BoundingBox) (pos cell_range : Vec32) : Nat :=
  gridCoord dims.x bb.min.x pos.x cell_range.x +
    dims.x.val * (gridCoord dims.y bb.min.y pos.y cell_range.y +
      dims.y.val * gridCoord dims.z bb.min.z pos.z cell_range.z)

/-- Modelled from the spec: `mapToCell`, which the header declares without a
body: the position relative to the origin of its cell. -/
def mapToCell (dims : Vec8) (bb : BoundingBox) (pos cell_range : Vec32) : Vec32 :=
  ⟨F32.sub (F32.sub pos.x bb.min.x)
      (F32.mul (F32.ofNat (gridCoord dims.x bb.min.x pos.x cell_range.x)) cell_range.x),
   F32.sub (F32.sub pos.y bb.min.y)
      (F32.mul (F32.ofNat (gridCoord dims.y bb.min.y pos.y cell_range.y)) cell_range.y),
   F32.sub (F32.sub pos.z bb.min.z)
      (F32.mul (F32.ofNat (gridCoord dims.z bb.min.z pos.z cell_range.z)) cell_range.z)⟩

/-- Modelled from the spec: the linear quantization of a value of the domain
`[lo, hi]` to the codes `0 .. levels`: `round((v - lo) / (hi - lo) * levels)`,
clamped. -/
def quantize (levels : Nat) (v lo hi : F32) : Nat :=
  match F32.mul (F32.div (F32.sub v lo) (F32.sub hi lo)) (F32.ofNat levels) with
  | F32.fin q => Nat.min (Rat.floor (q + 1 / 2)).toNat levels
  | F32.inf false => levels
  | _ => 0

/-- Modelled from the spec: the inverse mapping `lo + (q / levels) * (hi - lo)`. -/
def dequantize (levels : Nat) (q : Nat) (lo hi : F32) : F32 :=
  F32.add lo (F32.mul (F32.div (F32.ofNat q) (F32.ofNat levels)) (F32.sub hi lo))

/-- The clamping of a float to `[lo, hi]`. -/
def clampF (v lo hi : F32) : F32 :=
  if F32.le v lo then lo else if F32.le hi v then hi else v

/-- Modelled from the spec: `mapVec<float, T>`, missing from the sources: the
wide type keeps the float value (clamped to the domain), the 8-bit type
quantizes every axis to `0 .. 255`, the packed type quantizes to the 10, 11 and
11 bits of its three sub-fields. -/
def mapVec : (T : PrimType) → Vec32 → BoundingBox → Vec T.val
  | .float32, v, bb =>
    ⟨clampF v.x bb.min.x bb.max.x, clampF v.y bb.min.y bb.max.y, clampF v.z bb.min.z bb.max.z⟩
  | .uint8, v, bb =>
    ⟨Fin.ofNat (quantize 255 v.x bb.min.x bb.max.x), Fin.ofNat (quantize 255 v.y bb.min.y bb.max.y),
     Fin.ofNat (quantize 255 v.z bb.min.z bb.max.z)⟩
  | .uint32, v, bb =>
    ⟨Fin.ofNat (quantize 1023 v.x bb.min.x bb.max.x),
     Fin.ofNat (quantize 2047 v.y bb.min.y bb.max.y),
     Fin.ofNat (quantize 2047 v.z bb.min.z bb.max.z)⟩

/-- Modelled from the spec: the dequantization that `decode` applies, inverse
of `mapVec`. -/
def unmapVec : (T : PrimType) → Vec T.val → BoundingBox → Vec32
  | .float32, v, _ => v
  | .uint8, v, bb =>
    ⟨dequantize 255 v.x.val bb.min.x bb.max.x, dequantize 255 v.y.val bb.min.y bb.max.y,
     dequantize 255 v.z.val bb.min.z bb.max.z⟩
  | .uint32, v, bb =>
    ⟨dequantize 1023 v.x.val bb.min.x bb.max.x, dequantize 2047 v.y.val bb.min.y bb.max.y,
     dequantize 2047 v.z.val bb.min.z bb.max.z⟩

/-- The helpers as the specification describes them. -/
def specHelpers : Helpers :=
  ⟨BoundingBox.contains, BoundingBox.calcRange, calcGridCellIndex, mapToCell, mapVec⟩

/-! ## Decoding, modelled from the specification -/

/-- Modelled from the spec: the parsing of one attribute value of type `T`
from the front of the buffer; `none` when the buffer ends before it. -/
def decodeValue : (T : PrimType) → Message → Option (Vec T.val × Message)
  | .float32, .real a :: .real b :: .real c :: rest => some (⟨a, b, c⟩, rest)
  | .uint8, .byte a :: .byte b :: .byte c :: rest => some (⟨a, b, c⟩, rest)
  | .uint32, .uint w :: rest => some (unpackVec w, rest)
  | _, _ => none

/-- The append of one reconstructed point to the output point cloud. -/
def PointCloud.push (pc : PointCloud) (p c : Vec32) : PointCloud :=
  { pc with points := pc.points ++ [p], colors := pc.colors ++ [c] }

/-- The component-wise sum of two float vectors. -/
def Vec32.add (a b : Vec32) : Vec32 := ⟨F32.add a.x b.x, F32.add a.y b.y, F32.add a.z b.z⟩

/-- Modelled from the spec: the decoding of the `n` attribute pairs of one
cell: each position is dequantized over the cell-local domain and offset by
the cell origin, each color is dequantized over the color domain, and the
point is appended to the output. The flag is false when the buffer ends early;
the points appended before that stay. -/
def decodeVoxels (P C : PrimType) (cell_range origin : Vec32) :
    Nat → Message → PointCloud → Bool × Message × PointCloud
  | 0, msg, out => (true, msg, out)
  | n + 1, msg, out =>
    match decodeValue P msg with
    | none => (false, msg, out)
    | some (p, rest) =>
      match decodeValue C rest with
      | none => (false, rest, out)
      | some (c, rest2) =>
        decodeVoxels P C cell_range origin n rest2
          (out.push (Vec32.add origin (unmapVec P p (bbCell cell_range))) (unmapVec C c bbClr))

/-- Modelled from the spec: the world-space origin of the cell with linear
index `k`, for the dimensions read from the header. -/
def cellOrigin (dx dy : Nat) (lo cell_range : Vec32) (k : Nat) : Vec32 :=
  ⟨F32.add lo.x (F32.mul (F32.ofNat (k % dx)) cell_range.x),
   F32.add lo.y (F32.mul (F32.ofNat (k / dx % dy)) cell_range.y),
   F32.add lo.z (F32.mul (F32.ofNat (k / (dx * dy))) cell_range.z)⟩

/-- Modelled from the spec: the decoding of `n` cells starting at linear index
`k`: each cell is its attribute count followed by that many attribute pairs. -/
def decodeCells (P C : PrimType) (dx dy : Nat) (lo cell_range : Vec32) :
    Nat → Nat → Message → PointCloud → Bool × PointCloud
  | 0, _, _, out => (true, out)
  | n + 1, k, msg, out =>
    match msg with
    | .uint count :: rest =>
      match decodeVoxels P C cell_range (cellOrigin dx dy lo cell_range k) count.val rest out with
      | (true, rest2, out2) => decodeCells P C dx dy lo cell_range n (k + 1) rest2 out2
      | (false, _, out2) => (false, out2)
    | _ => (false, out)

/-- Modelled from the spec: `decode`, which the header declares without a
body: parses the header, then every cell, appending the reconstructed
points to the given point cloud; returns the success flag and the point cloud.
It fails on a buffer shorter than the header, on an unrecognised codec
identifier, and on a buffer that ends before the declared attributes. The grid
held by the encoder plays no part in the result and is left out. -/
def decode (msg : Message) (point_cloud : PointCloud) : Bool × PointCloud :=
  match msg with
  | .byte id :: .uint dx :: .uint dy :: .uint dz ::
      .real ax :: .real ay :: .real az :: .real bx :: .real b_y :: .real bz :: rest =>
    match Codec.ofId id with
    | none => (false, point_cloud)
    | some codec =>
      let range := BoundingBox.calcRange ⟨⟨ax, ay, az⟩, ⟨bx, b_y, bz⟩⟩
      let cell_range : Vec32 :=
        ⟨F32.div range.x (F32.ofNat dx.val), F32.div range.y (F32.ofNat dy.val),
         F32.div range.z (F32.ofNat dz.val)⟩
      decodeCells codec.posType codec.clrType dx.val dy.val ⟨ax, ay, az⟩ cell_range
        (dx.val * dy.val * dz.val) 0 rest point_cloud
  | _ => (false, point_cloud)

/-! ## Notions used to state the properties -/

/-- The arguments `(cell_idx, v_pos, v_clr)` that one loop iteration of
`buildPointCloudGrid<P, C>` passes to `addVoxel`, for a point `p` with color
`c` that lies in the bounding box `bb` of a grid of dimensions `dims`. -/
def voxel (h : Helpers) (P C : PrimType) (dims : Vec8) (bb : BoundingBox) (cell_range : Vec32)
    (p c : Vec32) : Nat × VariantValue × VariantValue :=
  (h.calcGridCellIndex dims bb p cell_range,
   VariantValue.set P (h.mapVec P (h.mapToCell dims bb p cell_range) (bbCell cell_range)),
   VariantValue.set C (convertVec P C (convertVec C P (h.mapVec C c bbClr))))

/-- The replay of a sequence of `addVoxel` calls on a grid. -/
def addVoxels (g : VariantPointCloudGrid) (calls : List (Nat × VariantValue × VariantValue)) :
    VariantPointCloudGrid :=
  calls.foldl (fun g a => g.addVoxel a.1 a.2.1 a.2.2) g

/-- The indices of the points of the cloud that pass the containment test of
the bounding box `bb`, in increasing order. -/
def containedIndices (h : Helpers) (bb : BoundingBox) (pc : PointCloud) : List Nat :=
  (List.range pc.size).filter (fun i => h.contains bb (pc.point i))

/-- The number of attribute pairs held by all cells of a grid. -/
def totalVoxels (g : VariantPointCloudGrid) : Nat := (g.cells.map List.length).sum

/-- The point cloud without its point (and color) of index `i`. -/
def PointCloud.erase (pc : PointCloud) (i : Nat) : PointCloud :=
  { pc with points := pc.points.eraseIdx i, colors := pc.colors.eraseIdx i }

/-! ## Sample data -/

/-- The float vector with the given finite components. -/
def v3 (a b c : ℚ) : Vec32 := ⟨F32.fin a, F32.fin b, F32.fin c⟩

/-- The bounding box `[0,0,0] .. [10,10,10]`. -/
def box10 : BoundingBox := ⟨v3 0 0 0, v3 10 10 10⟩

/-- A cloud of three points in `box10`: the second lies outside the box. -/
def cloud3 : PointCloud :=
  ⟨[v3 9 9 9, v3 11 0 0, v3 1 1 1], [v3 1 0 0, v3 0 1 0, v3 (1 / 2) (1 / 2) (1 / 2)], box10⟩

/-- A cloud of two points, both in `box10`. -/
def cloud2 : PointCloud := ⟨[v3 9 9 9, v3 1 1 1], [v3 1 0 0, v3 0 1 0], box10⟩

/-- The empty cloud with bounding box `box10`. -/
def cloud0 : PointCloud := ⟨[], [], box10⟩

/-- An encoder whose grid is still empty. -/
def enc0 : PointCloudGridEncoder := ⟨⟨⟨0, 0, 0⟩, box10, []⟩, 0, []⟩

/-- The grid dimensions 2 x 2 x 2. -/
def dims222 : Vec8 := ⟨2, 2, 2⟩

/-- The empty 2 x 2 x 2 grid over `box10`. -/
def grid222 : VariantPointCloudGrid := ⟨dims222, box10, List.replicate 8 []⟩

/-! ## Lemmas on the grid container -/

theorem addVoxel_dimensions (g : VariantPointCloudGrid) (k : Nat) (a b : VariantValue) :
    (g.addVoxel k a b).dimensions = g.dimensions := rfl

theorem addVoxel_bounding_box (g : VariantPointCloudGrid) (k : Nat) (a b : VariantValue) :
    (g.addVoxel k a b).bounding_box = g.bounding_box := rfl

theorem addVoxels_dimensions (calls : List (Nat × VariantValue × VariantValue)) :
    ∀ g : VariantPointCloudGrid, (addVoxels g calls).dimensions = g.dimensions := by
  induction calls with
  | nil => intro g; rfl
  | cons a t ih => intro g; simpa [addVoxels] using ih (g.addVoxel a.1 a.2.1 a.2.2)

theorem addVoxels_bounding_box (calls : List (Nat × VariantValue × VariantValue)) :
    ∀ g : VariantPointCloudGrid, (addVoxels g calls).bounding_box = g.bounding_box := by
  induction calls with
  | nil => intro g; rfl
  | cons a t ih => intro g; simpa [addVoxels] using ih (g.addVoxel a.1 a.2.1 a.2.2)

theorem addVoxels_cells_length (calls : List (Nat × VariantValue × VariantValue)) :
    ∀ g : VariantPointCloudGrid, (addVoxels g calls).cells.length = g.cells.length := by
  induction calls with
  | nil => intro g; rfl
  | cons a t ih =>
    intro g
    have := ih (g.addVoxel a.1 a.2.1 a.2.2)
    simpa [addVoxels, VariantPointCloudGrid.addVoxel] using this

/-- Cell `k` after a replay: its former content followed by the pairs of the
calls addressed to `k`, in call order. -/
theorem addVoxels_cell (calls : List (Nat × VariantValue × VariantValue)) :
    ∀ (g : VariantPointCloudGrid) (k : Nat),
      (addVoxels g calls).cells[k]? =
        (g.cells[k]?).map (fun c => c ++ ((calls.filter (fun a => a.1 = k)).map Prod.snd)) := by
  induction calls with
  | nil => intro g k; simp [addVoxels]
  | cons a t ih =>
    intro g k
    have e : addVoxels g (a :: t) = addVoxels (g.addVoxel a.1 a.2.1 a.2.2) t := rfl
    rw [e, ih]
    simp only [VariantPointCloudGrid.addVoxel, List.getElem?_modify]
    by_cases hk : a.1 = k
    · cases hg : g.cells[k]? <;> simp [hk, List.filter_cons]
    · cases hg : g.cells[k]? <;> simp [hk, List.filter_cons]

theorem modify_append_sum (x : VariantValue × VariantValue) :
    ∀ (l : List GridCell) (n : Nat),
      ((List.modify (fun c => c ++ [x]) n l).map List.length).sum =
        (l.map List.length).sum + (if n < l.length then 1 else 0) := by
  intro l
  induction l with
  | nil => intro n; cases n <;> simp [List.modify]
  | cons c t ih =>
    intro n
    cases n with
    | zero => simp [List.modify]; omega
    | succ m =>
      have := ih m
      simp [List.modify] at this ⊢
      rw [this]
      by_cases hm : m < t.length <;> simp [hm]; omega

/-- The number of stored pairs after a replay in which every call addresses an
existing cell. -/
theorem addVoxels_total (calls : List (Nat × VariantValue × VariantValue)) :
    ∀ g : VariantPointCloudGrid, (∀ a ∈ calls, a.1 < g.cells.length) →
      totalVoxels (addVoxels g calls) = totalVoxels g + calls.length := by
  induction calls with
  | nil => intro g _; rfl
  | cons a t ih =>
    intro g hin
    have e : addVoxels g (a :: t) = addVoxels (g.addVoxel a.1 a.2.1 a.2.2) t := rfl
    have ha : a.1 < g.cells.length := hin a (List.mem_cons_self _ _)
    have hlen : (g.addVoxel a.1 a.2.1 a.2.2).cells.length = g.cells.length := by
      simp [VariantPointCloudGrid.addVoxel]
    rw [e, ih _ (by intro b hb; rw [hlen]; exact hin b (List.mem_cons_of_mem _ hb))]
    simp only [totalVoxels, VariantPointCloudGrid.addVoxel, modify_append_sum, List.length_cons,
      if_pos ha]
    omega

/-! ## Lemmas on the grid builder -/

/-- One loop iteration, as a conditional `addVoxel`. -/
theorem buildStep_eq (h : Helpers) (P C : PrimType) (pc : PointCloud) (cell_range : Vec32)
    (g : VariantPointCloudGrid) (i : Nat) :
    buildStep h P C pc cell_range g i =
      if h.contains g.bounding_box (pc.point i) then
        addVoxels g [voxel h P C g.dimensions g.bounding_box cell_range (pc.point i) (pc.color i)]
      else g := by
  unfold buildStep
  cases h.contains g.bounding_box (pc.point i) <;> simp [addVoxels, voxel]

/-- The loop over any list of indices is the replay of the calls of the
indices that pass the containment test, in the order of the list. -/
theorem foldl_buildStep (h : Helpers) (P C : PrimType) (pc : PointCloud) (cell_range : Vec32)
    (l : List Nat) :
    ∀ g : VariantPointCloudGrid,
      l.foldl (buildStep h P C pc cell_range) g =
        addVoxels g ((l.filter (fun i => h.contains g.bounding_box (pc.point i))).map
          (fun i => voxel h P C g.dimensions g.bounding_box cell_range (pc.point i) (pc.color i))) := by
  induction l with
  | nil => intro g; rfl
  | cons i t ih =>
    intro g
    rw [List.foldl_cons, ih, buildStep_eq]
    by_cases hc : h.contains g.bounding_box (pc.point i) = true
    · simp only [hc, if_true, addVoxels_dimensions, addVoxels_bounding_box, List.filter_cons,
        List.map_cons]
      rfl
    · simp only [hc, List.filter_cons]
      rfl

/-- The grid builder is the replay of one `addVoxel` call per contained point. -/
theorem build_eq_addVoxels (h : Helpers) (P C : PrimType) (g : VariantPointCloudGrid)
    (pc : PointCloud) :
    buildPointCloudGrid h P C g pc =
      addVoxels g ((containedIndices h g.bounding_box pc).map
        (fun i => voxel h P C g.dimensions g.bounding_box (cellRange h g)
          (pc.point i) (pc.color i))) := by
  unfold buildPointCloudGrid containedIndices
  exact foldl_buildStep h P C pc (cellRange h g) (List.range pc.size) g

theorem map_filter_eq_filterMap {α β : Type} (p : α → Bool) (f : α → β) (l : List α) :
    (l.filter p).map f = l.filterMap (fun a => if p a then some (f a) else none) := by
  induction l with
  | nil => rfl
  | cons a t ih =>
    by_cases hp : p a = true
    · simp [List.filter_cons, List.filterMap_cons, hp, ih]
    · simp [List.filter_cons, List.filterMap_cons, hp, ih]

theorem filterMap_eraseIdx_of_none {α β : Type} (F : α → Option β) :
    ∀ (l : List α) (i : Nat), (∀ a, l[i]? = some a → F a = none) →
      (l.eraseIdx i).filterMap F = l.filterMap F := by
  intro l
  induction l with
  | nil => intro i _; rfl
  | cons a t ih =>
    intro i hi
    cases i with
    | zero =>
      have : F a = none := hi a (by simp)
      simp [List.eraseIdx, List.filterMap_cons, this]
    | succ j =>
      have := ih j (by intro b hb; exact hi b (by simpa using hb))
      simp [List.eraseIdx, List.filterMap_cons, this]

/-- Erasing index `i` from the cloud erases the pair of index `i` from the
sequence of (position, color) pairs that the loop reads. -/
theorem pairs_erase (pts cls : List Vec32) (d : Vec32) (i : Nat) (hi : i < pts.length) :
    (List.range (pts.eraseIdx i).length).map
        (fun j => ((pts.eraseIdx i).getD j d, (cls.eraseIdx i).getD j d)) =
      ((List.range pts.length).map (fun j => (pts.getD j d, cls.getD j d))).eraseIdx i := by
  apply List.ext_getElem?
  intro j
  rw [List.getElem?_eraseIdx]
  simp only [List.getElem?_map, List.getElem?_range, List.getD_eq_getElem?_getD,
    List.getElem?_eraseIdx, List.length_eraseIdx]
  rw [if_pos hi]
  by_cases hj : j < pts.length - 1
  · have h1 : (List.range (pts.length - 1))[j]? = some j := List.getElem?_range hj
    by_cases hji : j < i
    · have h2 : (List.range pts.length)[j]? = some j := List.getElem?_range (by omega)
      simp [h1, h2, hji]
    · have h3 : (List.range pts.length)[j + 1]? = some (j + 1) := List.getElem?_range (by omega)
      simp [h1, h3, hji]
  · have h1 : (List.range (pts.length - 1))[j]? = none := by
      rw [List.getElem?_eq_none_iff]; simp; omega
    have h3 : (List.range pts.length)[j + 1]? = none := by
      rw [List.getElem?_eq_none_iff]; simp; omega
    have hji : ¬ j < i := by omega
    simp [h1, h3, hji]

theorem calls_eq_filterMap (h : Helpers) (P C : PrimType) (dims : Vec8) (bb : BoundingBox)
    (cr : Vec32) (pc : PointCloud) :
    (containedIndices h bb pc).map (fun i => voxel h P C dims bb cr (pc.point i) (pc.color i)) =
      ((List.range pc.size).map (fun j => (pc.point j, pc.color j))).filterMap
        (fun a => if h.contains bb a.1 then some (voxel h P C dims bb cr a.1 a.2) else none) := by
  unfold containedIndices
  rw [map_filter_eq_filterMap, List.filterMap_map]
  rfl

theorem build_erase (h : Helpers) (P C : PrimType) (g : VariantPointCloudGrid) (pc : PointCloud)
    (i : Nat) (hi : i < pc.size) (hout : h.contains g.bounding_box (pc.point i) = false) :
    buildPointCloudGrid h P C g (pc.erase i) = buildPointCloudGrid h P C g pc := by
  rw [build_eq_addVoxels, build_eq_addVoxels, calls_eq_filterMap, calls_eq_filterMap]
  have hp : (List.range (pc.erase i).size).map (fun j => ((pc.erase i).point j, (pc.erase i).color j)) =
      ((List.range pc.size).map (fun j => (pc.point j, pc.color j))).eraseIdx i :=
    pairs_erase pc.points pc.colors Vec32.zero i hi
  rw [hp, filterMap_eraseIdx_of_none]
  intro a ha
  have hr : (List.range pc.size)[i]? = some i := List.getElem?_range hi
  simp only [List.getElem?_map, hr, Option.map_some', Option.some.injEq] at ha
  subst ha
  simp [hout]

theorem map_getD_range {α : Type} (l : List α) (d : α) :
    (List.range l.length).map (fun i => l.getD i d) = l := by
  apply List.ext_getElem
  · simp
  · intro n h1 h2
    simp [List.getD_eq_getElem?_getD, List.getElem?_eq_getElem h2]

theorem containedIndices_length (h : Helpers) (bb : BoundingBox) (pc : PointCloud) :
    (containedIndices h bb pc).length = (pc.points.filter (h.contains bb)).length := by
  have e : pc.points.filter (h.contains bb) =
      ((List.range pc.size).filter (fun i => h.contains bb (pc.point i))).map pc.point := by
    have := List.filter_map (f := pc.point) (p := h.contains bb) (l := List.range pc.size)
    have e2 : List.map pc.point (List.range pc.size) = pc.points :=
      map_getD_range pc.points Vec32.zero
    rw [e2] at this
    exact this
  rw [e, List.length_map]
  rfl

theorem containedIndices_sorted (h : Helpers) (bb : BoundingBox) (pc : PointCloud) :
    (containedIndices h bb pc).Pairwise (fun i j => i < j) :=
  List.Pairwise.filter _ (List.pairwise_lt_range pc.size)

theorem build_cell (h : Helpers) (P C : PrimType) (g : VariantPointCloudGrid) (pc : PointCloud)
    (k : Nat) :
    (buildPointCloudGrid h P C g pc).cells[k]? =
      (g.cells[k]?).map (fun c => c ++
        ((containedIndices h g.bounding_box pc).filter (fun i =>
            decide (h.calcGridCellIndex g.dimensions g.bounding_box (pc.point i) (cellRange h g) = k))).map
          (fun i => (voxel h P C g.dimensions g.bounding_box (cellRange h g)
            (pc.point i) (pc.color i)).2)) := by
  rw [build_eq_addVoxels, addVoxels_cell, List.filter_map, List.map_map]
  rfl

theorem set_type (T : PrimType) (v : Vec T.val) : (VariantValue.set T v).type = T := by
  cases T <;> rfl

/-! ## Lemmas on the frame codec -/

theorem decodeValue_encodeValue (T : PrimType) (v : VariantValue) (hT : v.type = T)
    (rest : Message) :
    ∃ x, decodeValue T (encodeValue v ++ rest) = some (x, rest) := by
  subst hT
  cases v <;> exact ⟨_, rfl⟩

theorem push_size (pc : PointCloud) (p c : Vec32) : (pc.push p c).size = pc.size + 1 := by
  simp [PointCloud.push, PointCloud.size]

theorem decodeVoxels_encode (P C : PrimType) (cr o : Vec32) (cell : GridCell) :
    (∀ a ∈ cell, a.1.type = P ∧ a.2.type = C) →
    ∀ (rest : Message) (out : PointCloud),
      ∃ out2, decodeVoxels P C cr o cell.length
          (cell.flatMap (fun a => encodeValue a.1 ++ encodeValue a.2) ++ rest) out =
            (true, rest, out2) ∧ out2.size = out.size + cell.length := by
  induction cell with
  | nil => intro _ rest out; exact ⟨out, rfl, rfl⟩
  | cons a t ih =>
    intro hty rest out
    obtain ⟨hP, hC⟩ := hty a (List.mem_cons_self _ _)
    obtain ⟨x, hx⟩ := decodeValue_encodeValue P a.1 hP
      (encodeValue a.2 ++ (t.flatMap (fun a => encodeValue a.1 ++ encodeValue a.2) ++ rest))
    obtain ⟨y, hy⟩ := decodeValue_encodeValue C a.2 hC
      (t.flatMap (fun a => encodeValue a.1 ++ encodeValue a.2) ++ rest)
    obtain ⟨out2, h1, h2⟩ := ih (fun b hb => hty b (List.mem_cons_of_mem _ hb)) rest
      (out.push (Vec32.add o (unmapVec P x (bbCell cr))) (unmapVec C y bbClr))
    refine ⟨out2, ?_, ?_⟩
    · simp only [List.length_cons, List.flatMap_cons, List.append_assoc, decodeVoxels, hx, hy]
      exact h1
    · rw [h2, push_size, List.length_cons]; omega

theorem length_le_sum_of_mem (cells : List GridCell) (c : GridCell) (hc : c ∈ cells) :
    c.length ≤ (cells.map List.length).sum := by
  induction cells with
  | nil => cases hc
  | cons a t ih =>
    rcases List.mem_cons.1 hc with rfl | h
    · simp
    · have := ih h
      simp only [List.map_cons, List.sum_cons]
      omega

theorem decodeCells_encode (P C : PrimType) (dx dy : Nat) (lo cr : Vec32) (cells : List GridCell) :
    (∀ cell ∈ cells, ∀ a ∈ cell, a.1.type = P ∧ a.2.type = C) →
    (∀ cell ∈ cells, cell.length < 4294967296) →
    ∀ (k : Nat) (rest : Message) (out : PointCloud),
      ∃ out2, decodeCells P C dx dy lo cr cells.length k (cells.flatMap encodeCell ++ rest) out =
          (true, out2) ∧ out2.size = out.size + (cells.map List.length).sum := by
  induction cells with
  | nil => intro _ _ k rest out; exact ⟨out, rfl, rfl⟩
  | cons c t ih =>
    intro hty hlen k rest out
    have hc : c.length < 4294967296 := hlen c (List.mem_cons_self _ _)
    obtain ⟨out1, h1, h2⟩ := decodeVoxels_encode P C cr (cellOrigin dx dy lo cr k) c
      (hty c (List.mem_cons_self _ _)) (t.flatMap encodeCell ++ rest) out
    obtain ⟨out2, h3, h4⟩ := ih (fun b hb => hty b (List.mem_cons_of_mem _ hb))
      (fun b hb => hlen b (List.mem_cons_of_mem _ hb)) (k + 1) rest out1
    refine ⟨out2, ?_, ?_⟩
    · have hv : (Fin.ofNat c.length : Fin 4294967296).val = c.length := by
        simp [Fin.ofNat, Nat.mod_eq_of_lt hc]
      simp only [List.length_cons, List.flatMap_cons, encodeCell, List.cons_append,
        List.append_assoc, decodeCells, hv, h1]
      exact h3
    · rw [h4, h2]; simp only [List.map_cons, List.sum_cons]; omega

theorem ofNat_val_of_lt (n : Nat) (hn : n < 4294967296) :
    (Fin.ofNat n : Fin 4294967296).val = n := by
  simp [Fin.ofNat, Nat.mod_eq_of_lt hn]

theorem ofId_codecId (c : Codec) : Codec.ofId (codecId c.posType c.clrType) = some c := by
  cases c <;> rfl

theorem decode_encodePointCloudGrid (c : Codec) (g : VariantPointCloudGrid) (out : PointCloud)
    (hlen : g.cells.length = cellCount g.dimensions)
    (hty : ∀ cell ∈ g.cells, ∀ a ∈ cell, a.1.type = c.posType ∧ a.2.type = c.clrType)
    (hsz : ∀ cell ∈ g.cells, cell.length < 4294967296) :
    ∃ out2, decode (encodePointCloudGrid c.posType c.clrType g) out = (true, out2) ∧
      out2.size = out.size + totalVoxels g := by
  have hx := ofNat_val_of_lt g.dimensions.x.val (by omega)
  have hy := ofNat_val_of_lt g.dimensions.y.val (by omega)
  have hz := ofNat_val_of_lt g.dimensions.z.val (by omega)
  obtain ⟨out2, h1, h2⟩ := decodeCells_encode c.posType c.clrType g.dimensions.x.val
    g.dimensions.y.val g.bounding_box.min
    ⟨F32.div (BoundingBox.calcRange g.bounding_box).x (F32.ofNat g.dimensions.x.val),
     F32.div (BoundingBox.calcRange g.bounding_box).y (F32.ofNat g.dimensions.y.val),
     F32.div (BoundingBox.calcRange g.bounding_box).z (F32.ofNat g.dimensions.z.val)⟩
    g.cells hty hsz 0 [] out
  refine ⟨out2, ?_, h2⟩
  rw [List.append_nil, hlen] at h1
  simp only [encodePointCloudGrid, encodeHeader, List.cons_append, List.nil_append, decode,
    ofId_codecId, hx, hy, hz]
  exact h1

theorem clampFloor_le (v : F32) (hi : Nat) : clampFloor v hi ≤ hi := by
  unfold clampFloor
  split
  · exact Nat.min_le_right _ _
  · exact Nat.le_refl _
  · exact Nat.zero_le _

theorem gridCoord_lt (dim : Fin 256) (lo pos cr : F32) (hd : dim.val ≠ 0) :
    gridCoord dim lo pos cr < dim.val := by
  have := clampFloor_le (F32.div (F32.sub pos lo) cr) (dim.val - 1)
  unfold gridCoord
  omega

theorem linear_index_lt (x y z dx dy dz : Nat) (hx : x < dx) (hy : y < dy) (hz : z < dz) :
    x + dx * (y + dy * z) < dx * dy * dz := by
  have h1 : y + dy * z + 1 ≤ dy * dz := by
    have : dy * (z + 1) ≤ dy * dz := Nat.mul_le_mul_left dy hz
    rw [Nat.mul_succ] at this
    omega
  have h2 : dx * (y + dy * z + 1) ≤ dx * (dy * dz) := Nat.mul_le_mul_left dx h1
  rw [Nat.mul_succ] at h2
  rw [Nat.mul_assoc]
  omega

/-- The cell index of the specification addresses an existing cell when no
dimension is zero. -/
theorem calcGridCellIndex_lt (dims : Vec8) (bb : BoundingBox) (pos cr : Vec32)
    (hx : dims.x.val ≠ 0) (hy : dims.y.val ≠ 0) (hz : dims.z.val ≠ 0) :
    calcGridCellIndex dims bb pos cr < cellCount dims :=
  linear_index_lt _ _ _ _ _ _ (gridCoord_lt dims.x _ _ _ hx) (gridCoord_lt dims.y _ _ _ hy)
    (gridCoord_lt dims.z _ _ _ hz)

/-- The number of stored pairs after the grid builder, when the cell indices
address existing cells. -/
theorem build_total (h : Helpers) (P C : PrimType) (g : VariantPointCloudGrid) (pc : PointCloud)
    (hidx : ∀ i ∈ containedIndices h g.bounding_box pc,
      h.calcGridCellIndex g.dimensions g.bounding_box (pc.point i) (cellRange h g) <
        g.cells.length) :
    totalVoxels (buildPointCloudGrid h P C g pc) =
      totalVoxels g + (pc.points.filter (h.contains g.bounding_box)).length := by
  rw [build_eq_addVoxels, addVoxels_total, List.length_map, containedIndices_length]
  intro a ha
  obtain ⟨i, hi, rfl⟩ := List.mem_map.1 ha
  exact hidx i hi

/-- The pairs of a grid built from cleared cells are stored with the types
`P` and `C`. -/
theorem build_fresh_typed (h : Helpers) (P C : PrimType) (dims : Vec8) (bb : BoundingBox)
    (n : Nat) (pc : PointCloud) :
    ∀ cell ∈ (buildPointCloudGrid h P C ⟨dims, bb, List.replicate n []⟩ pc).cells, ∀ a ∈ cell,
      a.1.type = P ∧ a.2.type = C := by
  intro cell hcell a ha
  obtain ⟨k, hk⟩ := List.mem_iff_getElem?.1 hcell
  rw [build_cell] at hk
  cases hr : (List.replicate n ([] : GridCell))[k]? with
  | none => simp [hr] at hk
  | some c0 =>
    have hm : c0 ∈ List.replicate n ([] : GridCell) := List.mem_iff_getElem?.2 ⟨k, hr⟩
    have hc0 : c0 = [] := List.eq_of_mem_replicate hm
    subst hc0
    simp only [hr, Option.map_some', Option.some.injEq, List.nil_append] at hk
    subst hk
    obtain ⟨i, _, rfl⟩ := List.mem_map.1 ha
    exact ⟨set_type _ _, set_type _ _⟩

theorem totalVoxels_replicate (dims : Vec8) (bb : BoundingBox) (n : Nat) :
    totalVoxels ⟨dims, bb, List.replicate n []⟩ = 0 := by
  simp [totalVoxels]

/-- The contained points of the cloud are the points at the contained indices. -/
theorem contained_points (h : Helpers) (bb : BoundingBox) (pc : PointCloud) :
    pc.points.filter (h.contains bb) = (containedIndices h bb pc).map pc.point := by
  have := List.filter_map (f := pc.point) (p := h.contains bb) (l := List.range pc.size)
  have e2 : List.map pc.point (List.range pc.size) = pc.points :=
    map_getD_range pc.points Vec32.zero
  rw [e2] at this
  exact this

/-! ## Properties of the grid builder -/

/-- C2 (out-of-domain drop): a point for which the containment test of the
grid bounding box is false is not among the points for which `addVoxel` is
called, the grid that `buildPointCloudGrid` produces is the grid it produces
for the cloud without that point, and so are the message and encoder state of
`encode` (whose grid bounding box is the cloud's), hence whatever is decoded
from the message. -/
theorem out_of_domain_point_dropped (h : Helpers) (P C : PrimType) (enc : PointCloudGridEncoder)
    (g : VariantPointCloudGrid) (pc : PointCloud) (dims : Vec8) (i : Nat) (hi : i < pc.size) :
    (h.contains g.bounding_box (pc.point i) = false →
      i ∉ containedIndices h g.bounding_box pc ∧
      buildPointCloudGrid h P C g pc = buildPointCloudGrid h P C g (pc.erase i)) ∧
    (h.contains pc.bounding_box (pc.point i) = false →
      encode h P C enc pc dims = encode h P C enc (pc.erase i) dims ∧
      ∀ out : PointCloud, decode (encode h P C enc pc dims).1 out =
        decode (encode h P C enc (pc.erase i) dims).1 out) := by
  refine ⟨fun hout => ⟨?_, (build_erase h P C g pc i hi hout).symm⟩, fun hout => ?_⟩
  · simp [containedIndices, hout]
  · have hb := build_erase h P C
      { enc.pc_grid_.resize dims with bounding_box := pc.bounding_box } pc i hi hout
    have e1 : (pc.erase i).bounding_box = pc.bounding_box := rfl
    have e2 : encode h P C enc pc dims = encode h P C enc (pc.erase i) dims := by
      simp only [encode, e1, hb]
    exact ⟨e2, fun out => by rw [e2]⟩

/-- The witness for C2: the second point of `cloud3`, outside the box. -/
theorem out_of_domain_point_dropped_witness :
    specHelpers.contains cloud3.bounding_box (cloud3.point 1) = false ∧
    encode specHelpers .uint8 .uint8 enc0 cloud3 dims222 =
      encode specHelpers .uint8 .uint8 enc0 (cloud3.erase 1) dims222 :=
  ⟨by decide!, ((out_of_domain_point_dropped specHelpers .uint8 .uint8 enc0 grid222 cloud3 dims222 1
    (by decide)).2 (by decide!)).1⟩

/-- C3 (one cell per in-domain point): the grid builder is the replay of a
sequence of `addVoxel` calls that has exactly one call per point of the cloud
inside the grid bounding box, addressed to the cell
`calcGridCellIndex(point, cell_range)`; the cell of index `k` grows by exactly
the number of contained points whose cell index is `k`; and, the cell indices
addressing existing cells, the total number of voxels held by the cells grows
by exactly the number of points inside the bounding box. -/
theorem build_one_cell_per_point (h : Helpers) (P C : PrimType) (g : VariantPointCloudGrid)
    (pc : PointCloud) :
    buildPointCloudGrid h P C g pc =
      addVoxels g ((containedIndices h g.bounding_box pc).map
        (fun i => voxel h P C g.dimensions g.bounding_box (cellRange h g)
          (pc.point i) (pc.color i))) ∧
    ((containedIndices h g.bounding_box pc).map
        (fun i => voxel h P C g.dimensions g.bounding_box (cellRange h g)
          (pc.point i) (pc.color i))).length =
      (pc.points.filter (h.contains g.bounding_box)).length ∧
    ((containedIndices h g.bounding_box pc).map
        (fun i => (voxel h P C g.dimensions g.bounding_box (cellRange h g)
          (pc.point i) (pc.color i)).1)) =
      (pc.points.filter (h.contains g.bounding_box)).map
        (fun p => h.calcGridCellIndex g.dimensions g.bounding_box p (cellRange h g)) ∧
    (∀ k, ((buildPointCloudGrid h P C g pc).cells[k]?).map List.length =
      (g.cells[k]?).map (fun c => c.length +
        ((containedIndices h g.bounding_box pc).filter (fun i =>
          decide (h.calcGridCellIndex g.dimensions g.bounding_box (pc.point i) (cellRange h g)
            = k))).length)) ∧
    ((∀ i ∈ containedIndices h g.bounding_box pc,
        h.calcGridCellIndex g.dimensions g.bounding_box (pc.point i) (cellRange h g) <
          g.cells.length) →
      totalVoxels (buildPointCloudGrid h P C g pc) =
        totalVoxels g + (pc.points.filter (h.contains g.bounding_box)).length) := by
  refine ⟨build_eq_addVoxels h P C g pc, ?_, ?_, ?_, build_total h P C g pc⟩
  · rw [List.length_map, containedIndices_length]
  · rw [contained_points, List.map_map]
    rfl
  · intro k
    rw [build_cell]
    cases g.cells[k]? <;> simp

/-- The witness for C3: `cloud3` on the empty 2 x 2 x 2 grid; two of its three
points lie in the box. -/
theorem build_one_cell_per_point_witness :
    totalVoxels (buildPointCloudGrid specHelpers .uint8 .uint8 grid222 cloud3) = 0 + 2 :=
  (build_one_cell_per_point specHelpers .uint8 .uint8 grid222 cloud3).2.2.2.2 (by decide!)

/-- C8 (insertion order is encounter order): the grid builder is the replay of
the `addVoxel` calls of the contained points in the order of their indices in
the cloud, these indices are increasing, and what the builder appends to the
cell of index `k` is the sequence of the voxels of the contained points whose
cell index is `k`, in increasing order of their indices. -/
theorem build_insertion_order (h : Helpers) (P C : PrimType) (g : VariantPointCloudGrid)
    (pc : PointCloud) :
    buildPointCloudGrid h P C g pc =
      addVoxels g ((containedIndices h g.bounding_box pc).map
        (fun i => voxel h P C g.dimensions g.bounding_box (cellRange h g)
          (pc.point i) (pc.color i))) ∧
    containedIndices h g.bounding_box pc =
      (List.range pc.size).filter (fun i => h.contains g.bounding_box (pc.point i)) ∧
    (containedIndices h g.bounding_box pc).Pairwise (fun i j => i < j) ∧
    ∀ k, (buildPointCloudGrid h P C g pc).cells[k]? =
      (g.cells[k]?).map (fun c => c ++
        ((containedIndices h g.bounding_box pc).filter (fun i =>
            decide (h.calcGridCellIndex g.dimensions g.bounding_box (pc.point i) (cellRange h g)
              = k))).map
          (fun i => (voxel h P C g.dimensions g.bounding_box (cellRange h g)
            (pc.point i) (pc.color i)).2)) :=
  ⟨build_eq_addVoxels h P C g pc, rfl, containedIndices_sorted h g.bounding_box pc,
    build_cell h P C g pc⟩

/-- C9 (cell range): the cell range of `buildPointCloudGrid` is the range of
the grid bounding box divided component-wise by the grid dimensions, and it is
this vector that every `addVoxel` call is computed with: the cell index, the
local position and the position quantization domain `[0,0,0] .. cell_range`.
For the box `[0,0,0] .. [10,10,10]` and a 2 x 2 x 2 grid it is `(5, 5, 5)`. -/
theorem build_cell_range (h : Helpers) (P C : PrimType) (g : VariantPointCloudGrid)
    (pc : PointCloud) :
    cellRange h g =
      ⟨F32.div (h.calcRange g.bounding_box).x (F32.ofNat g.dimensions.x.val),
       F32.div (h.calcRange g.bounding_box).y (F32.ofNat g.dimensions.y.val),
       F32.div (h.calcRange g.bounding_box).z (F32.ofNat g.dimensions.z.val)⟩ ∧
    buildPointCloudGrid h P C g pc =
      addVoxels g ((containedIndices h g.bounding_box pc).map (fun i =>
        (h.calcGridCellIndex g.dimensions g.bounding_box (pc.point i) (cellRange h g),
         VariantValue.set P (h.mapVec P
           (h.mapToCell g.dimensions g.bounding_box (pc.point i) (cellRange h g))
           ⟨Vec32.zero, cellRange h g⟩),
         VariantValue.set C (convertVec P C (convertVec C P (h.mapVec C (pc.color i) bbClr)))))) ∧
    cellRange specHelpers grid222 = v3 5 5 5 :=
  ⟨rfl, build_eq_addVoxels h P C g pc, by decide!⟩

/-- C10 (the color passes through the position type): with position type
`uint8_t` and color type `float`, the color `(1/2, 1/2, 1/2)` of the third
point of `cloud3` is stored as `(0, 0, 0)`, although `mapVec<float, float>`
maps it to `(1/2, 1/2, 1/2)`, the value that is stored when the position type
is `float`: the stored color depends on `P`. -/
theorem color_through_position_type :
    (buildPointCloudGrid specHelpers .uint8 .float32 grid222 cloud3).cells[0]? =
      some [(VariantValue.u8 ⟨51, 51, 51⟩, VariantValue.f32 (v3 0 0 0))] ∧
    specHelpers.mapVec .float32 (cloud3.color 2) bbClr = v3 (1 / 2) (1 / 2) (1 / 2) ∧
    (buildPointCloudGrid specHelpers .float32 .float32 grid222 cloud3).cells[0]? =
      some [(VariantValue.f32 (v3 1 1 1), VariantValue.f32 (v3 (1 / 2) (1 / 2) (1 / 2)))] := by
  decide!

/-! ## Properties of `encode` and `decode` -/

/-- C1, as stated, fails: for the dimensions `(0, 2, 2)` and the empty cloud
over `box10`, `encode` returns a message (the header, with the zero dimension)
and leaves the rebuilt grid behind, and the cell range of that grid has been
computed by the division `10 / (float) 0`, which gave `+inf`. -/
theorem zero_dimension_not_rejected :
    encode specHelpers .uint8 .uint8 enc0 cloud0 ⟨0, 2, 2⟩ =
      ([Field.byte 1, Field.uint 0, Field.uint 2, Field.uint 2,
        Field.real (F32.fin 0), Field.real (F32.fin 0), Field.real (F32.fin 0),
        Field.real (F32.fin 10), Field.real (F32.fin 10), Field.real (F32.fin 10)],
       ⟨⟨⟨0, 2, 2⟩, box10, []⟩, 0, []⟩) ∧
    cellRange specHelpers ⟨⟨0, 2, 2⟩, box10, []⟩ = ⟨F32.inf false, F32.fin 5, F32.fin 5⟩ := by
  decide!

/-- C1, amended: `encode` has no failure path. For all grid dimensions, zero
components included, it rebuilds the grid with these dimensions and the
bounding box of the cloud, returns the message of that grid, and the cell
range is computed by dividing each range component by the dimension cast to
float; a division of a finite range by `(float) 0` is evaluated and yields an
infinity or NaN. -/
theorem encode_never_rejects (h : Helpers) (P C : PrimType) (enc : PointCloudGridEncoder)
    (pc : PointCloud) (dims : Vec8) :
    (encode h P C enc pc dims).1 = encodePointCloudGrid P C (encode h P C enc pc dims).2.pc_grid_ ∧
    (encode h P C enc pc dims).2.pc_grid_ =
      buildPointCloudGrid h P C ⟨dims, pc.bounding_box, List.replicate (cellCount dims) []⟩ pc ∧
    (encode h P C enc pc dims).2.pc_grid_.dimensions = dims ∧
    (encode h P C enc pc dims).2.pc_grid_.bounding_box = pc.bounding_box ∧
    (encode h P C enc pc dims).2.pc_grid_.cells.length = cellCount dims ∧
    cellRange h ⟨dims, pc.bounding_box, List.replicate (cellCount dims) []⟩ =
      ⟨F32.div (h.calcRange pc.bounding_box).x (F32.ofNat dims.x.val),
       F32.div (h.calcRange pc.bounding_box).y (F32.ofNat dims.y.val),
       F32.div (h.calcRange pc.bounding_box).z (F32.ofNat dims.z.val)⟩ ∧
    ∀ r : ℚ, F32.div (F32.fin r) (F32.ofNat 0) =
      if r = 0 then F32.nan else F32.inf (decide (r < 0)) := by
  refine ⟨rfl, rfl, ?_, ?_, ?_, rfl, ?_⟩
  · simp only [encode, VariantPointCloudGrid.resize]
    rw [build_eq_addVoxels, addVoxels_dimensions]
  · simp only [encode, VariantPointCloudGrid.resize]
    rw [build_eq_addVoxels, addVoxels_bounding_box]
  · simp only [encode, VariantPointCloudGrid.resize]
    rw [build_eq_addVoxels, addVoxels_cells_length, List.length_replicate]
  · intro r
    simp [F32.div, F32.ofNat]

/-- C5 (determinism): every `encode` call rebuilds the grid. Whatever the
encoder held before, the grid that is serialized has the dimensions of the
call, the bounding box of the cloud and one cell per linear index, it is the
grid that the builder produces from cleared cells, and the cell of index `k`
holds exactly the voxels of this call's contained points whose cell index is
`k`, nothing of an earlier call; the message is the serialization of that
grid. Hence the message and the grid do not depend on the encoder state: a
call on the encoder left by an earlier call, of any cloud, dimensions and
codec, and a repeated call on the same instance, return the same message. On
the encoder left by encoding `cloud3` on a 2 x 2 x 2 grid, encoding the empty
cloud on a 1 x 1 x 1 grid yields the header and one empty cell. -/
theorem encode_deterministic (h : Helpers) (P C : PrimType) (enc1 enc2 : PointCloudGridEncoder)
    (pc : PointCloud) (dims : Vec8) :
    (encode h P C enc1 pc dims).2.pc_grid_.dimensions = dims ∧
    (encode h P C enc1 pc dims).2.pc_grid_.bounding_box = pc.bounding_box ∧
    (encode h P C enc1 pc dims).2.pc_grid_.cells.length = cellCount dims ∧
    (encode h P C enc1 pc dims).2.pc_grid_ =
      buildPointCloudGrid h P C ⟨dims, pc.bounding_box, List.replicate (cellCount dims) []⟩ pc ∧
    (∀ k, (encode h P C enc1 pc dims).2.pc_grid_.cells[k]? =
      if k < cellCount dims then
        some (((containedIndices h pc.bounding_box pc).filter (fun i =>
            decide (h.calcGridCellIndex dims pc.bounding_box (pc.point i)
              (cellRange h ⟨dims, pc.bounding_box, List.replicate (cellCount dims) []⟩) = k))).map
          (fun i => (voxel h P C dims pc.bounding_box
            (cellRange h ⟨dims, pc.bounding_box, List.replicate (cellCount dims) []⟩)
            (pc.point i) (pc.color i)).2))
      else none) ∧
    (encode h P C enc1 pc dims).1 =
      encodePointCloudGrid P C (encode h P C enc1 pc dims).2.pc_grid_ ∧
    (encode h P C enc1 pc dims).1 = (encode h P C enc2 pc dims).1 ∧
    (encode h P C enc1 pc dims).2.pc_grid_ = (encode h P C enc2 pc dims).2.pc_grid_ ∧
    (∀ (P1 C1 : PrimType) (pc1 : PointCloud) (dims1 : Vec8),
      (encode h P C (encode h P1 C1 enc1 pc1 dims1).2 pc dims).1 = (encode h P C enc1 pc dims).1) ∧
    (encode h P C (encode h P C enc1 pc dims).2 pc dims).1 = (encode h P C enc1 pc dims).1 ∧
    encode specHelpers .float32 .uint8
        (encode specHelpers .uint8 .uint8 enc0 cloud3 dims222).2 cloud0 ⟨1, 1, 1⟩ =
      ([Field.byte 0, Field.uint 1, Field.uint 1, Field.uint 1,
        Field.real (F32.fin 0), Field.real (F32.fin 0), Field.real (F32.fin 0),
        Field.real (F32.fin 10), Field.real (F32.fin 10), Field.real (F32.fin 10),
        Field.uint 0],
       ⟨⟨⟨1, 1, 1⟩, box10, [[]]⟩, 0, []⟩) := by
  have hg : (encode h P C enc1 pc dims).2.pc_grid_ =
      buildPointCloudGrid h P C ⟨dims, pc.bounding_box, List.replicate (cellCount dims) []⟩ pc :=
    rfl
  refine ⟨?_, ?_, ?_, hg, ?_, rfl, rfl, rfl, fun _ _ _ _ => rfl, rfl, by decide!⟩
  · rw [hg, build_eq_addVoxels, addVoxels_dimensions]
  · rw [hg, build_eq_addVoxels, addVoxels_bounding_box]
  · rw [hg, build_eq_addVoxels, addVoxels_cells_length, List.length_replicate]
  · intro k
    rw [hg, build_cell]
    simp only [List.getElem?_replicate]
    by_cases hk : k < cellCount dims
    · simp only [hk, if_true, Option.map_some', List.nil_append]
    · simp only [hk, if_false, Option.map_none']

/-- C7 (one codec per message): after `encode<P, C>`, on any encoder state,
every attribute pair of every cell of the grid holds its position with type
`P` and its color with type `C`. -/
theorem encode_single_codec (h : Helpers) (P C : PrimType) (enc : PointCloudGridEncoder)
    (pc : PointCloud) (dims : Vec8) :
    ∀ cell ∈ (encode h P C enc pc dims).2.pc_grid_.cells, ∀ a ∈ cell,
      a.1.type = P ∧ a.2.type = C :=
  build_fresh_typed h P C dims pc.bounding_box (cellCount dims) pc

/-- The witness for C7: a second call, with another codec, on the encoder left
by a first call: the pair of the last cell. -/
theorem encode_single_codec_witness :
    [(VariantValue.f32 (v3 4 4 4), VariantValue.u8 ⟨255, 0, 0⟩)] ∈
      (encode specHelpers .float32 .uint8
        (encode specHelpers .uint8 .uint8 enc0 cloud3 dims222).2 cloud3 dims222).2.pc_grid_.cells ∧
    (VariantValue.f32 (v3 4 4 4)).type = PrimType.float32 ∧
    (VariantValue.u8 ⟨255, 0, 0⟩).type = PrimType.uint8 :=
  ⟨by decide!,
   encode_single_codec specHelpers .float32 .uint8
    (encode specHelpers .uint8 .uint8 enc0 cloud3 dims222).2 cloud3 dims222
    [(VariantValue.f32 (v3 4 4 4), VariantValue.u8 ⟨255, 0, 0⟩)] (by decide!)
    (VariantValue.f32 (v3 4 4 4), VariantValue.u8 ⟨255, 0, 0⟩) (by decide!)⟩

/-- C4 (round-trip count): for each of the three codecs, grid dimensions
without a zero component and a cloud whose number of points fits the 32-bit
count fields, `decode` applied to the message of `encode` succeeds and appends
exactly as many points as the cloud has points that pass the containment test
of its bounding box; when all points of the cloud pass it, these are as many
points as the cloud has, and decoding into an empty cloud yields a cloud with
the same number of points as the input. -/
theorem decode_encode_count (c : Codec) (enc : PointCloudGridEncoder) (pc : PointCloud)
    (dims : Vec8) (out : PointCloud)
    (hx : dims.x.val ≠ 0) (hy : dims.y.val ≠ 0) (hz : dims.z.val ≠ 0)
    (hsz : pc.size < 4294967296) :
    (decode (encode specHelpers c.posType c.clrType enc pc dims).1 out).1 = true ∧
    (decode (encode specHelpers c.posType c.clrType enc pc dims).1 out).2.size =
      out.size + (pc.points.filter (BoundingBox.contains pc.bounding_box)).length ∧
    ((∀ p ∈ pc.points, BoundingBox.contains pc.bounding_box p = true) →
      (decode (encode specHelpers c.posType c.clrType enc pc dims).1 out).2.size =
        out.size + pc.size ∧
      (decode (encode specHelpers c.posType c.clrType enc pc dims).1
        ⟨[], [], pc.bounding_box⟩).2.size = pc.size) := by
  have key : ∀ o : PointCloud,
      (decode (encode specHelpers c.posType c.clrType enc pc dims).1 o).1 = true ∧
      (decode (encode specHelpers c.posType c.clrType enc pc dims).1 o).2.size =
        o.size + (pc.points.filter (BoundingBox.contains pc.bounding_box)).length := by
    intro o
    have hg : (encode specHelpers c.posType c.clrType enc pc dims).1 =
        encodePointCloudGrid c.posType c.clrType
          (buildPointCloudGrid specHelpers c.posType c.clrType
            ⟨dims, pc.bounding_box, List.replicate (cellCount dims) []⟩ pc) := rfl
    have htot : totalVoxels (buildPointCloudGrid specHelpers c.posType c.clrType
        ⟨dims, pc.bounding_box, List.replicate (cellCount dims) []⟩ pc) =
          (pc.points.filter (BoundingBox.contains pc.bounding_box)).length := by
      rw [build_total, totalVoxels_replicate, Nat.zero_add]
      · rfl
      · intro i _
        simp only [List.length_replicate]
        exact calcGridCellIndex_lt dims pc.bounding_box _ _ hx hy hz
    have hle : (pc.points.filter (BoundingBox.contains pc.bounding_box)).length ≤ pc.size :=
      List.length_filter_le _ _
    obtain ⟨out2, h1, h2⟩ := decode_encodePointCloudGrid c
      (buildPointCloudGrid specHelpers c.posType c.clrType
        ⟨dims, pc.bounding_box, List.replicate (cellCount dims) []⟩ pc) o
      (by rw [build_eq_addVoxels, addVoxels_cells_length, addVoxels_dimensions,
            List.length_replicate])
      (build_fresh_typed specHelpers c.posType c.clrType dims pc.bounding_box _ pc)
      (by
        intro cell hcell
        have := length_le_sum_of_mem _ cell hcell
        have ht : (List.map List.length (buildPointCloudGrid specHelpers c.posType c.clrType
          ⟨dims, pc.bounding_box, List.replicate (cellCount dims) []⟩ pc).cells).sum =
            (pc.points.filter (BoundingBox.contains pc.bounding_box)).length := htot
        omega)
    rw [hg, h1]
    exact ⟨rfl, by rw [h2, htot]⟩
  refine ⟨(key out).1, (key out).2, fun hin => ?_⟩
  have hf : pc.points.filter (BoundingBox.contains pc.bounding_box) = pc.points :=
    List.filter_eq_self.2 hin
  have hl : (pc.points.filter (BoundingBox.contains pc.bounding_box)).length = pc.size :=
    congrArg List.length hf
  refine ⟨by rw [(key out).2, hl], ?_⟩
  have := (key ⟨[], [], pc.bounding_box⟩).2
  rw [hl] at this
  simpa [PointCloud.size] using this

/-- The witness for C4: the two points of `cloud2` with the 8-bit codec. -/
theorem decode_encode_count_witness :
    (∀ p ∈ cloud2.points, BoundingBox.contains cloud2.bounding_box p = true) ∧
    (decode (encode specHelpers .uint8 .uint8 enc0 cloud2 dims222).1 cloud0).1 = true ∧
    (decode (encode specHelpers .uint8 .uint8 enc0 cloud2 dims222).1 cloud0).2.size = 0 + 2 :=
  ⟨by decide!,
   (decode_encode_count Codec.PC_3x8p_3x8c enc0 cloud2 dims222 cloud0 (by decide) (by decide)
    (by decide) (by decide)).1,
   ((decode_encode_count Codec.PC_3x8p_3x8c enc0 cloud2 dims222 cloud0 (by decide) (by decide)
    (by decide) (by decide)).2.2 (by decide!)).1⟩

end Libpcc
